import Mathlib

/-!
Shallow embedding of the Grabbertest repository (hfscrapper.py,
huggingface_api_key_scanner.py, main.py): the secret-pattern rules and
their `re.findall` semantics, directory content scanning, the seen-space
log, findings persistence, the iterative remote tree walk and the
catalog pagination loop, together with theorems settling the
specification claims C1 through C10.
-/

namespace Grabbertest

/-- ASCII character class `[a-zA-Z0-9]`. -/
def isAsciiAlnum (c : Char) : Bool :=
  ('a' ≤ c && c ≤ 'z') || ('A' ≤ c && c ≤ 'Z') || ('0' ≤ c && c ≤ '9')

/-- ASCII character class `[A-Za-z0-9_-]` (also `[A-Za-z0-9\-_]`). -/
def isWordDash (c : Char) : Bool :=
  isAsciiAlnum c || c == '-' || c == '_'

/-- ASCII character class `[a-f0-9]`. -/
def isHexLower (c : Char) : Bool :=
  ('a' ≤ c && c ≤ 'f') || ('0' ≤ c && c ≤ '9')

/-- Python regex whitespace class `\s` (space, tab, LF, CR, VT, FF). -/
def isPyWs (c : Char) : Bool :=
  c == ' ' || c == '\t' || c == '\n' || c == '\r' ||
    c == Char.ofNat 11 || c == Char.ofNat 12

/-- Quote character class `['"]`. -/
def isQuoteChar (c : Char) : Bool := c == '\'' || c == '\"'

/-- Length of the maximal leading run of characters satisfying `cls`. -/
def classRun (cls : Char → Bool) : List Char → Nat
  | [] => 0
  | c :: cs => if cls c then classRun cls cs + 1 else 0

/-- A secret-pattern shape as used throughout this repository: a literal
prefix, a character class repeated either exactly `count` times
(`unbounded = false`) or greedily at least `count` times
(`unbounded = true`), followed by a literal suffix. Every regex in the
source is an alternation of such shapes. -/
structure RunPat where
  pre : List Char
  cls : Char → Bool
  count : Nat
  unbounded : Bool
  suf : List Char

/-- Try to match `p` at the start of `s`; on success return the matched
text and the remaining input. Python `re` semantics for the shapes used
here: the class repetition is greedy and, since an exact count is
followed only by a literal and an open-ended count by nothing,
no backtracking ever arises. -/
def matchAt (p : RunPat) (s : List Char) : Option (List Char × List Char) :=
  if p.pre.isPrefixOf s then
    let rest := s.drop p.pre.length
    let r := classRun p.cls rest
    if p.unbounded then
      if p.count ≤ r then some (p.pre ++ rest.take r, rest.drop r) else none
    else
      if p.count ≤ r then
        if p.suf.isPrefixOf (rest.drop p.count) then
          some (p.pre ++ rest.take p.count ++ p.suf,
                (rest.drop p.count).drop p.suf.length)
        else none
      else none
  else none

/-- First alternative of `ps` that matches at the start of `s`
(Python alternation tries alternatives left to right). -/
def matchAlts (ps : List RunPat) (s : List Char) : Option (List Char × List Char) :=
  match ps with
  | [] => none
  | p :: rest =>
    match matchAt p s with
    | some r => some r
    | none => matchAlts rest s

/-- `re.findall` scanning: try the pattern at each position left to
right; a match is emitted and scanning resumes after its end, otherwise
scanning advances one character. Fuelled by the input length (every
pattern in this repository consumes at least its nonempty prefix). -/
def findallFuel (ps : List RunPat) : Nat → List Char → List (List Char)
  | 0, _ => []
  | _, [] => []
  | fuel + 1, c :: tl =>
    match matchAlts ps (c :: tl) with
    | some (m, rest) => m :: findallFuel ps fuel rest
    | none => findallFuel ps fuel tl

/-- `re.findall` over a string for an alternation of run patterns. -/
def findall (ps : List RunPat) (s : String) : List String :=
  (findallFuel ps s.data.length s.data).map fun m => String.mk m

/-- Try to match a config pattern `name\s*=\s*['"]([^'"]+)['"]` at the
start of `s`, returning the captured group and the remaining input. -/
def matchConfigAt (name : List Char) (s : List Char) : Option (List Char × List Char) :=
  if name.isPrefixOf s then
    let r1 := s.drop name.length
    match r1.drop (classRun isPyWs r1) with
    | '=' :: r2 =>
      match r2.drop (classRun isPyWs r2) with
      | q :: r4 =>
        if isQuoteChar q then
          let v := classRun (fun c => !(isQuoteChar c)) r4
          if 0 < v then
            match r4.drop v with
            | q2 :: rest => if isQuoteChar q2 then some (r4.take v, rest) else none
            | [] => none
          else none
        else none
      | [] => none
    | _ => none
  else none

/-- `re.findall` for a config pattern with one capture group: Python
returns the list of captured groups. -/
def findallConfigFuel (name : List Char) : Nat → List Char → List (List Char)
  | 0, _ => []
  | _, [] => []
  | fuel + 1, c :: tl =>
    match matchConfigAt name (c :: tl) with
    | some (m, rest) => m :: findallConfigFuel name fuel rest
    | none => findallConfigFuel name fuel tl

/-- `re.findall` over a string for a one-group config pattern. -/
def findallConfig (name : String) (s : String) : List String :=
  (findallConfigFuel name.data s.data.length s.data).map fun m => String.mk m

/-- `sk-[a-zA-Z0-9]{40,}` — the scanner's OpenAI rule
(huggingface_api_key_scanner.py line 22). -/
def openAIPat : RunPat := ⟨"sk-".data, isAsciiAlnum, 40, true, []⟩

/-- The scanner's Claude rule, an alternation of three shapes
(huggingface_api_key_scanner.py line 23). -/
def claudePats : List RunPat :=
  [⟨"sk-ant-api03-".data, isWordDash, 93, false, "AA".data⟩,
   ⟨"sk-ant-".data, isWordDash, 86, false, []⟩,
   ⟨"sk-".data, isAsciiAlnum, 86, false, []⟩]

/-- `AIzaSy[A-Za-z0-9\-_]{33}` — the scanner's GoogleAI rule. -/
def googleAIPat : RunPat := ⟨"AIzaSy".data, isWordDash, 33, false, []⟩

/-- `sk-[a-f0-9]{32}` — the scanner's DeepSeek rule. -/
def deepSeekPat : RunPat := ⟨"sk-".data, isHexLower, 32, false, []⟩

/-- `xai-[a-zA-Z0-9]{80}` — the scanner's XAI rule. -/
def xaiPat : RunPat := ⟨"xai-".data, isAsciiAlnum, 80, false, []⟩

/-- `API_KEY_PATTERNS` of huggingface_api_key_scanner.py (ordered as in
the Python dict). -/
def API_KEY_PATTERNS : List (String × List RunPat) :=
  [("OpenAI", [openAIPat]), ("Claude", claudePats), ("GoogleAI", [googleAIPat]),
   ("DeepSeek", [deepSeekPat]), ("XAI", [xaiPat])]

/-- `search_keys_in_content` (huggingface_api_key_scanner.py 50-59):
run every rule over the content and collect, per kind in registry
order, the nonempty match lists. -/
def search_keys_in_content (content : String) (patterns : List (String × List RunPat)) :
    List (String × List String) :=
  patterns.foldl
    (fun acc p =>
      let ms := findall p.2 content
      if ms.isEmpty then acc else acc ++ [(p.1, ms)])
    []

/-- Extend the accumulated per-kind findings with the matches of one
kind, mirroring the dict-merge in `scan_directory_for_keys`
(huggingface_api_key_scanner.py 80-84). -/
def extendFound (all : List (String × List String)) (kt : String) (ks : List String) :
    List (String × List String) :=
  if all.any (fun p => p.1 == kt) then
    all.map fun p => if p.1 == kt then (p.1, p.2 ++ ks) else p
  else all ++ [(kt, ks)]

/-- `scan_directory_for_keys` (huggingface_api_key_scanner.py 61-87):
the directory is embedded as the list of its files' text contents;
contents longer than 5 MiB are skipped, the others are searched and
their per-kind matches merged. -/
def scan_directory_for_keys (contents : List String) : List (String × List String) :=
  contents.foldl
    (fun all content =>
      if 5 * 1024 * 1024 < content.length then all
      else
        (search_keys_in_content content API_KEY_PATTERNS).foldl
          (fun acc kv => extendFound acc kv.1 kv.2) all)
    []

/-- Output file names (huggingface_api_key_scanner.py 30-34). -/
def OPENAI_KEYS_OUTPUT_FILE : String := "found_openai_keys.txt"

/-- Output file for Claude keys. -/
def CLAUDE_KEYS_OUTPUT_FILE : String := "found_claude_keys.txt"

/-- Output file for GoogleAI keys. -/
def GOOGLEAI_KEYS_OUTPUT_FILE : String := "found_googleai_keys.txt"

/-- Output file for DeepSeek keys. -/
def DEEPSEEK_KEYS_OUTPUT_FILE : String := "found_deepseek_keys.txt"

/-- Output file for XAI keys. -/
def XAI_KEYS_OUTPUT_FILE : String := "found_xai_keys.txt"

/-- The filename-selection if/elif chain of `save_key_to_file`
(huggingface_api_key_scanner.py 91-103); `none` is the `else: return`
branch for an unknown key type. -/
def outputFile (key_type : String) : Option String :=
  if key_type = "OpenAI" then some OPENAI_KEYS_OUTPUT_FILE
  else if key_type = "Claude" then some CLAUDE_KEYS_OUTPUT_FILE
  else if key_type = "GoogleAI" then some GOOGLEAI_KEYS_OUTPUT_FILE
  else if key_type = "DeepSeek" then some DEEPSEEK_KEYS_OUTPUT_FILE
  else if key_type = "XAI" then some XAI_KEYS_OUTPUT_FILE
  else none

/-- The line `save_key_to_file` appends:
`f"{key} # Found in space: {space_id}"` (line 107). -/
def keyLine (key space_id : String) : String :=
  key ++ " # Found in space: " ++ space_id

/-- `save_key_to_file` (huggingface_api_key_scanner.py 89-110) acting on
a file system embedded as a map from filename to its list of appended
lines: unknown kinds return without touching any file, known kinds
append one line to their kind-specific file. -/
def save_key_to_file (key_type key space_id : String)
    (files : String → List String) : String → List String :=
  match outputFile key_type with
  | none => files
  | some fn => fun f => if f = fn then files f ++ [keyLine key space_id] else files f

/-- The (repository, secretKind, value) triples persisted when the found
keys of one space are saved: one triple per `save_key_to_file` call that
reaches a file (huggingface_api_key_scanner.py 204-207). -/
def persistedTriples (space_id : String) (found : List (String × List String)) :
    List (String × String × String) :=
  found.foldr
    (fun kv acc =>
      (kv.2.filterMap fun k =>
        if (outputFile kv.1).isSome then some (space_id, kv.1, k) else none) ++ acc)
    []

/-- Externally visible effects of the orchestrator, in program order. -/
inductive Event where
  | appendFinding : String → String → Event
  | markSeen : String → Event
  | writeSeenLine : String → Event
  | scanSpace : String → Event
  deriving DecidableEq, Repr

/-- Whether an event is an append to a findings file. -/
def isAppendFinding : Event → Bool
  | .appendFinding _ _ => true
  | _ => false

/-- Whether an event is a baseline write of one id to the seen log. -/
def isWriteSeenLine : Event → Bool
  | .writeSeenLine _ => true
  | _ => false

/-- Events of one `save_key_to_file` call: one findings-file append for
a known kind, nothing for an unknown kind. -/
def save_key_event (key_type key space_id : String) : List Event :=
  match outputFile key_type with
  | none => []
  | some fn => [.appendFinding fn (keyLine key space_id)]

/-- Events of the inner `for key in keys_list` loop
(huggingface_api_key_scanner.py 206-207). -/
def saveKeysList (space_id key_type : String) : List String → List Event
  | [] => []
  | k :: ks => save_key_event key_type k space_id ++ saveKeysList space_id key_type ks

/-- Events of the `for key_type, keys_list in found_keys.items()` loop
(huggingface_api_key_scanner.py 204-207). -/
def saveFoundKeys (space_id : String) : List (String × List String) → List Event
  | [] => []
  | (kt, ks) :: rest => saveKeysList space_id kt ks ++ saveFoundKeys space_id rest

/-- Per-space processing of the scanner's main loop
(huggingface_api_key_scanner.py 185-219): the download-and-scan of the
space either raises (`Except.error`, caught by the handler at line 216,
so nothing further happens and the id is not marked) or yields the found
keys, which are all saved before `seen_spaces.add` / `save_seen_space`
run at lines 213-214. -/
def process_space (space_id : String) (outcome : Except Unit (List (String × List String))) :
    List Event :=
  Event.scanSpace space_id ::
    (match outcome with
     | .error _ => []
     | .ok found => saveFoundKeys space_id found ++ [Event.markSeen space_id])

/-- Python `str.strip()` on the character list of a line. -/
def pyStrip (l : List Char) : List Char :=
  ((l.dropWhile isPyWs).reverse.dropWhile isPyWs).reverse

/-- `line.strip()` as used by `load_seen_spaces`. -/
def stripStr (s : String) : String := String.mk (pyStrip s.data)

/-- `load_seen_spaces` (huggingface_api_key_scanner.py 38-43): the seen
log is embedded at line granularity (each `save_seen_space` appends
exactly one line); loading strips every line. Membership in the
resulting Python set is list membership here. -/
def load_seen_spaces (log : List String) : List String := log.map stripStr

/-- `save_seen_space` (huggingface_api_key_scanner.py 45-48): append one
line holding the id to the seen log. -/
def save_seen_space (log : List String) (space_id : String) : List String :=
  log ++ [space_id]

/-- The process state of the seen set: the in-memory set (as a list) and
the durable log (as lines). -/
structure SeenState where
  seen : List String
  log : List String

/-- `seen_spaces.add(space_id)` followed by `save_seen_space(space_id)`
(huggingface_api_key_scanner.py 213-214). -/
def addSeen (st : SeenState) (space_id : String) : SeenState :=
  ⟨st.seen ++ [space_id], save_seen_space st.log space_id⟩

/-- `space_id in seen_spaces` / `space_id not in seen_spaces`. -/
def containsSeen (st : SeenState) (space_id : String) : Bool :=
  st.seen.contains space_id

/-- Startup of the scanner's `main` (huggingface_api_key_scanner.py
118-140): if the seen log is absent (`none`), write every id of the
current catalog to the log (one `writeSeenLine` event each) and take the
catalog as the in-memory seen set, scanning nothing; otherwise load the
existing log. Returns the emitted events and the in-memory seen set. -/
def startup (seenLog : Option (List String)) (catalog : List String) :
    List Event × List String :=
  match seenLog with
  | none => (catalog.map Event.writeSeenLine, catalog)
  | some log => ([], load_seen_spaces log)

/-- The new-space filter of each scan cycle
(huggingface_api_key_scanner.py 162-166): keep the catalog entries whose
id is not in the seen set. -/
def cycleNewSpaces (catalog : List String) (seen : List String) : List String :=
  catalog.filter fun space_id => !(seen.contains space_id)

/-- `append_to_file` (hfscrapper.py 5-7) on the line-level file-system
embedding: append `content` as one line of `filename`. -/
def append_to_file (files : String → List String) (filename content : String) :
    String → List String :=
  fun f => if f = filename then files f ++ [content] else files f

/-- `oai_regex = re.compile(r"sk-[a-zA-Z0-9_-]{47,}")` (hfscrapper.py 9). -/
def oai_regex : RunPat := ⟨"sk-".data, isWordDash, 47, true, []⟩

/-- One step body of hfscrapper's iterative directory walk
(hfscrapper.py 38-57), fuelled: pop the front directory, list it via
`env` (an `Except.error` stands for both a non-200 status and a raised
exception, which the code handles identically with `continue`), append
the listed files to the accumulator and the listed directories to the
queue. -/
def walkAux (env : String → Except Unit (List (String × String))) :
    Nat → List String → List String → List String
  | 0, _, files => files
  | _ + 1, [], files => files
  | fuel + 1, d :: queue, files =>
    match env d with
    | .error _ => walkAux env fuel queue files
    | .ok items =>
      walkAux env fuel
        (queue ++ items.filterMap fun it => if it.2 == "directory" then some it.1 else none)
        (files ++ items.filterMap fun it => if it.2 == "file" then some it.1 else none)

/-- The whole walk: seeded with the root directory `""` and an empty
file accumulator (hfscrapper.py 38-39). -/
def walk (env : String → Except Unit (List (String × String))) (fuel : Nat) : List String :=
  walkAux env fuel [""] []

/-- The extension allowlist of `search_for_openai_keys` (main.py 64). -/
def allowedExts : List String :=
  [".py", ".ipynb", ".txt", ".md", ".js", ".html", ".css", ".yaml", ".yml",
   ".json", ".env", ".config"]

/-- `file['path'].endswith(ext)` for some allowlisted ext. -/
def hasAllowedExt (path : String) : Bool :=
  allowedExts.any fun ext => ext.data.isSuffixOf path.data

/-- `match.startswith('sk-')` (main.py 86). -/
def startsWithSk (s : String) : Bool := "sk-".data.isPrefixOf s.data

/-- `openai_key_pattern = re.compile(r'sk-[a-zA-Z0-9]{48}')` (main.py 40). -/
def openai_key_pattern : RunPat := ⟨"sk-".data, isAsciiAlnum, 48, false, []⟩

/-- The names of the three config patterns of main.py 41-45, in order. -/
def configNames : List String := ["openai_api_key", "OPENAI_API_KEY", "api_key"]

/-- `if match not in found_keys: found_keys.append(match)` (main.py 78-80). -/
def addUnique (found : List String) (m : String) : List String :=
  if found.contains m then found else found ++ [m]

/-- `if match.startswith('sk-') and match not in found_keys:
found_keys.append(match)` (main.py 85-87). -/
def addConfigKey (found : List String) (m : String) : List String :=
  if startsWithSk m && !(found.contains m) then found ++ [m] else found

/-- Per-file key accumulation of `search_for_openai_keys` (main.py
76-87): direct matches first, then the three config patterns in order. -/
def processFileContent (found : List String) (content : String) : List String :=
  configNames.foldl
    (fun acc nm => (findallConfig nm content).foldl addConfigKey acc)
    ((findall [openai_key_pattern] content).foldl addUnique found)

/-- A space as seen by `search_for_openai_keys`: the paths listed by the
files endpoint (an absent/empty `path` field is embedded as `""`) and
the raw-content endpoint (`none` = non-200 status). -/
structure SpaceEnv where
  files : List String
  content : String → Option String

/-- One iteration of the `for file in files` loop of
`search_for_openai_keys` (main.py 59-90) over the state
(accumulated keys, fetched paths): skip falsy paths, skip paths without
an allowlisted extension (never fetching them), otherwise fetch — the
request happens before the status check — and on success scan. -/
def searchFileStep (env : SpaceEnv) (st : List String × List String) (path : String) :
    List String × List String :=
  if path = "" then st
  else if !(hasAllowedExt path) then st
  else
    match env.content path with
    | none => (st.1, st.2 ++ [path])
    | some c => (processFileContent st.1 c, st.2 ++ [path])

/-- `search_for_openai_keys` (main.py 37-95): returns the
`(space_id, key)` pairs of the deduplicated keys found in the space,
together with the list of content-fetch requests issued. -/
def search_for_openai_keys (space_id : String) (env : SpaceEnv) :
    List (String × String) × List String :=
  let st := env.files.foldl (searchFileStep env) ([], [])
  (st.1.map fun k => (space_id, k), st.2)

/-- The line `main` writes per finding to results/found_keys.txt:
`f"Space: {space_id}, Key: {key}"` (main.py 138). -/
def mainResultLine (space_id key : String) : String :=
  "Space: " ++ space_id ++ ", Key: " ++ key

/-- The pagination loop of `get_all_spaces` (main.py 14-32), fuelled:
fetch page `page`; a non-200 status (`Except.error`) or an empty page
breaks the loop, otherwise the page's ids are accumulated and the next
page is fetched. Space descriptors are embedded by their ids. -/
def fetchPages (catalog : Nat → Except Unit (List String)) : Nat → Nat → List String
  | 0, _ => []
  | fuel + 1, page =>
    match catalog page with
    | .error _ => []
    | .ok [] => []
    | .ok l => l ++ fetchPages catalog fuel (page + 1)

/-- `get_all_spaces` (main.py 8-35): paginate from page 1. -/
def get_all_spaces (catalog : Nat → Except Unit (List String)) (fuel : Nat) : List String :=
  fetchPages catalog fuel 1

/-- `sub` occurs as a contiguous segment of `l`. -/
def containsSeg (sub l : List Char) : Bool :=
  (List.range (l.length + 1)).any fun i => sub.isPrefixOf (l.drop i)

/-! ## Helper lemmas -/

theorem contains_iff_mem {α : Type} [BEq α] [LawfulBEq α] (l : List α) (a : α) :
    l.contains a = true ↔ a ∈ l :=
  List.elem_iff

theorem foldl_preserves {α β : Type} (P : α → Prop) (f : α → β → α)
    (hf : ∀ a b, P a → P (f a b)) :
    ∀ (l : List β) (a : α), P a → P (l.foldl f a) := by
  intro l
  induction l with
  | nil => intro a ha; exact ha
  | cons b bs ih => intro a ha; exact ih _ (hf a b ha)

theorem addUnique_nodup (found : List String) (m : String) (h : found.Nodup) :
    (addUnique found m).Nodup := by
  unfold addUnique
  split
  · exact h
  · next hc =>
    rw [List.nodup_append]
    refine ⟨h, List.nodup_singleton m, fun x hx hx2 => ?_⟩
    rw [List.mem_singleton] at hx2
    subst hx2
    exact hc ((contains_iff_mem found x).mpr hx)

theorem addConfigKey_nodup (found : List String) (m : String) (h : found.Nodup) :
    (addConfigKey found m).Nodup := by
  unfold addConfigKey
  split
  · next hc =>
    rw [Bool.and_eq_true, Bool.not_eq_true'] at hc
    rw [List.nodup_append]
    refine ⟨h, List.nodup_singleton m, fun x hx hx2 => ?_⟩
    rw [List.mem_singleton] at hx2
    subst hx2
    rw [(contains_iff_mem found x).mpr hx] at hc
    exact Bool.true_eq_false.mp hc.2
  · exact h

theorem processFileContent_nodup (found : List String) (c : String) (h : found.Nodup) :
    (processFileContent found c).Nodup := by
  unfold processFileContent
  refine foldl_preserves (fun l => l.Nodup)
    (fun acc nm => (findallConfig nm c).foldl addConfigKey acc) ?_ configNames _ ?_
  · intro a nm ha
    exact foldl_preserves (fun l => l.Nodup) addConfigKey
      (fun a2 m h2 => addConfigKey_nodup a2 m h2) _ a ha
  · exact foldl_preserves (fun l => l.Nodup) addUnique
      (fun a m h2 => addUnique_nodup a m h2) _ found h

theorem searchFileStep_nodup (env : SpaceEnv) (st : List String × List String)
    (path : String) (h : st.1.Nodup) : ((searchFileStep env st path).1).Nodup := by
  unfold searchFileStep
  split
  · exact h
  split
  · exact h
  cases hc : env.content path with
  | none => simpa [hc] using h
  | some c => simpa [hc] using processFileContent_nodup st.1 c h

theorem save_key_event_all_append (key_type key space_id : String) :
    (save_key_event key_type key space_id).all isAppendFinding = true := by
  unfold save_key_event
  cases outputFile key_type <;> rfl

theorem saveKeysList_all_append (space_id key_type : String) :
    ∀ ks, (saveKeysList space_id key_type ks).all isAppendFinding = true := by
  intro ks
  induction ks with
  | nil => rfl
  | cons k ks ih =>
    rw [saveKeysList, List.all_append, Bool.and_eq_true]
    exact ⟨save_key_event_all_append key_type k space_id, ih⟩

theorem saveFoundKeys_all_append (space_id : String) :
    ∀ found, (saveFoundKeys space_id found).all isAppendFinding = true := by
  intro found
  induction found with
  | nil => rfl
  | cons kv rest ih =>
    rw [show saveFoundKeys space_id (kv :: rest)
        = saveKeysList space_id kv.1 kv.2 ++ saveFoundKeys space_id rest from rfl,
      List.all_append, Bool.and_eq_true]
    exact ⟨saveKeysList_all_append space_id kv.1 kv.2, ih⟩

theorem all_not_markSeen_of_all_append (space_id : String) (l : List Event)
    (h : l.all isAppendFinding = true) :
    (l.all fun e => !(e == Event.markSeen space_id)) = true := by
  rw [List.all_eq_true] at h ⊢
  intro e he
  have h2 := h e he
  cases e <;> simp_all [isAppendFinding]

/-! ## Claim theorems -/

/-- The 48-character OpenAI-style key of the end-to-end scenario. -/
def c2Key : String := "sk-ABCDEFGHIJKLMNOPQRSTUVWXYZ0123456789ABCDEFGH12"

/-- The content of the scenario's `secrets.env`. -/
def c2Content : String :=
  "OPENAI_API_KEY = \"sk-ABCDEFGHIJKLMNOPQRSTUVWXYZ0123456789ABCDEFGH12\""

/-- The scenario repository as seen by main.py: one file `secrets.env`
serving `c2Content`. -/
def c2MainEnv : SpaceEnv :=
  ⟨["secrets.env"], fun p => if p = "secrets.env" then some c2Content else none⟩

/-- A repository holding only binary/image files; its content endpoint
even serves key-bearing text, to show the allowlist alone prevents any
fetch. -/
def c2BinaryEnv : SpaceEnv :=
  ⟨["logo.png", "photo.jpg", "model.bin"], fun _ => some c2Content⟩

/-- C2: scanning a repository whose only file is `secrets.env` with the
scenario content yields exactly one finding, of kind "OpenAI", whose
value is the key itself — both through the scanner's
`scan_directory_for_keys` and through main.py's
`search_for_openai_keys` — while a repository holding only binary/image
files yields zero findings and issues zero content-fetch requests. -/
theorem c2_end_to_end :
    scan_directory_for_keys [c2Content] = [("OpenAI", [c2Key])]
    ∧ search_for_openai_keys "user/space" c2MainEnv
        = ([("user/space", c2Key)], ["secrets.env"])
    ∧ search_for_openai_keys "user/space" c2BinaryEnv = ([], []) :=
  ⟨rfl, rfl, rfl⟩

/-- The 48-character post-prefix segment `"a1" * 24` of the pattern
scenario. -/
def c5Seg : String := "a1a1a1a1a1a1a1a1a1a1a1a1a1a1a1a1a1a1a1a1a1a1a1a1"

/-- The same segment cut to 39 characters, one short of the OpenAI
rule's minimum of 40. -/
def c5SegShort : String := "a1a1a1a1a1a1a1a1a1a1a1a1a1a1a1a1a1a1a1a"

/-- `"token sk-"` followed by the 48-character segment. -/
def c5Content : String := "token sk-" ++ c5Seg

/-- `"token sk-"` followed by the 39-character segment. -/
def c5ContentShort : String := "token sk-" ++ c5SegShort

/-- C5: the registry classifies `"token sk-" + "a1"*24` under the
OpenAI rule — the post-prefix segment (48 characters) meets the rule's
minimum of 40 and the whole greedy match is returned — while the same
content with the segment one character shorter than the minimum (39
characters) is not classified under the OpenAI rule. -/
theorem c5_openai_rule_minimum :
    (search_keys_in_content c5Content API_KEY_PATTERNS).lookup "OpenAI"
      = some ["sk-" ++ c5Seg]
    ∧ c5Seg.length = 48
    ∧ openAIPat.count = 40
    ∧ openAIPat.unbounded = true
    ∧ (search_keys_in_content c5ContentShort API_KEY_PATTERNS).lookup "OpenAI" = none
    ∧ c5SegShort.length = 39 :=
  ⟨rfl, rfl, rfl, rfl, rfl, rfl⟩

/-- C10: calling `save_key_to_file` with a key type outside the five
known kinds is a no-op — it returns without modifying any output file. -/
theorem c10_unknown_kind_is_noop : ∀ (key_type key space_id : String)
    (files : String → List String),
    key_type ≠ "OpenAI" → key_type ≠ "Claude" → key_type ≠ "GoogleAI" →
    key_type ≠ "DeepSeek" → key_type ≠ "XAI" →
    save_key_to_file key_type key space_id files = files := by
  intro kt k sid files h1 h2 h3 h4 h5
  unfold save_key_to_file outputFile
  simp [h1, h2, h3, h4, h5]

theorem c10_witness :
    save_key_to_file "Mistral" "sk-x" "user/space" (fun _ => []) = (fun _ => []) :=
  c10_unknown_kind_is_noop "Mistral" "sk-x" "user/space" (fun _ => [])
    (by decide) (by decide) (by decide) (by decide) (by decide)

/-- C3: on a successful scan the per-space trace is the scan, then only
findings-file appends, then the single markSeen event last — so every
finding is persisted before the id is added to the seen set — and when
processing raises an error the trace contains no markSeen event, so the
id is not added in that cycle and is re-attempted later. -/
theorem c3_persist_before_mark_seen :
    ∀ (space_id : String) (found : List (String × List String)),
    process_space space_id (Except.ok found)
      = (Event.scanSpace space_id :: saveFoundKeys space_id found)
          ++ [Event.markSeen space_id]
    ∧ (saveFoundKeys space_id found).all isAppendFinding = true
    ∧ ((Event.scanSpace space_id :: saveFoundKeys space_id found).all
        fun e => !(e == Event.markSeen space_id)) = true
    ∧ ((process_space space_id (Except.error ())).all
        fun e => !(e == Event.markSeen space_id)) = true := by
  intro sid found
  refine ⟨by simp [process_space], saveFoundKeys_all_append sid found, ?_, ?_⟩
  · rw [List.all_cons, Bool.and_eq_true]
    exact ⟨by simp, all_not_markSeen_of_all_append sid _ (saveFoundKeys_all_append sid found)⟩
  · simp [process_space]

/-- C4: on a first-ever run (seen log absent) the orchestrator emits one
seen-log write per catalog id and nothing else — no finding is recorded
and no repository content is scanned — the in-memory seen set becomes
the whole catalog, and the subsequent cycle over the same catalog finds
no new space to scan; in particular a 3-id catalog has all 3 marked
seen. -/
theorem c4_first_run_baseline : ∀ catalog : List String,
    (startup none catalog).1 = catalog.map Event.writeSeenLine
    ∧ ((startup none catalog).1.all isWriteSeenLine) = true
    ∧ (startup none catalog).2 = catalog
    ∧ (catalog.all fun sid =>
        (startup none catalog).1.contains (Event.writeSeenLine sid)) = true
    ∧ cycleNewSpaces catalog (startup none catalog).2 = []
    ∧ (startup none ["r1", "r2", "r3"]).2 = ["r1", "r2", "r3"] := by
  intro catalog
  refine ⟨rfl, ?_, rfl, ?_, ?_, rfl⟩
  · rw [List.all_eq_true]
    intro e he
    rw [show (startup none catalog).1 = catalog.map Event.writeSeenLine from rfl,
      List.mem_map] at he
    obtain ⟨sid, _, rfl⟩ := he
    rfl
  · rw [List.all_eq_true]
    intro sid hsid
    exact (contains_iff_mem _ _).mpr
      (List.mem_map_of_mem Event.writeSeenLine hsid)
  · rw [show (startup none catalog).2 = catalog from rfl]
    unfold cycleNewSpaces
    rw [List.filter_eq_nil_iff]
    intro a ha
    simpa using ha

/-- A key matching the scanner's OpenAI rule (prefix plus 43
characters, all outside the DeepSeek hex class). -/
def c1Key : String := "sk-ZZZZZZZZZZZZZZZZZZZZZZZZZZZZZZZZZZZZZZZZZZZ"

/-- A file content holding the very same key twice. -/
def c1DupContent : String := c1Key ++ " " ++ c1Key

/-- C1 counterexample: a space whose file holds the same key twice makes
the scanner call `save_key_to_file` twice with the identical
(repository, secretKind, value) triple — the persisted triples are not
pairwise distinct, refuting the dedup invariant as stated. -/
theorem c1_counterexample :
    ¬ (persistedTriples "user/space"
        (search_keys_in_content c1DupContent API_KEY_PATTERNS)).Nodup := by
  decide

/-- C1 (amended): deduplication exists only inside main.py's
per-repository scan — within one `search_for_openai_keys` call no two
returned findings share the same (repository, value) — whereas the
scanner-side recording appends one line per detected occurrence, so the
findings store can receive duplicate triples. -/
theorem c1_per_scan_dedup : ∀ (space_id : String) (env : SpaceEnv),
    ((search_for_openai_keys space_id env).1).Nodup := by
  intro sid env
  show (((env.files.foldl (searchFileStep env) ([], [])).1).map fun k => (sid, k)).Nodup
  refine List.Nodup.map (fun a b hab => ?_) ?_
  · simpa using congrArg Prod.snd hab
  · exact foldl_preserves (fun st => st.1.Nodup) (searchFileStep env)
      (fun a b ha => searchFileStep_nodup env a b ha) env.files ([], []) List.nodup_nil

/-- C6: the seen set is monotone — after `add(id)` the id is contained
for the rest of the process; any id contained before is still contained
after; after a restart, loading the grown log still yields the id
(its stored line strips to itself); and loading the grown log keeps
every id the old log had, so no operation removes an id. -/
theorem c6_seen_set_monotone : ∀ (st : SeenState) (id x : String),
    containsSeen (addSeen st id) id = true
    ∧ (containsSeen st x = true → containsSeen (addSeen st id) x = true)
    ∧ (stripStr id = id → (load_seen_spaces (addSeen st id).log).contains id = true)
    ∧ ((load_seen_spaces st.log).contains x = true →
        (load_seen_spaces (addSeen st id).log).contains x = true) := by
  intro st id x
  refine ⟨?_, ?_, ?_, ?_⟩
  · exact (contains_iff_mem _ _).mpr (List.mem_append_right _ (List.mem_singleton.mpr rfl))
  · intro hx
    exact (contains_iff_mem _ _).mpr
      (List.mem_append_left _ ((contains_iff_mem _ _).mp hx))
  · intro hid
    refine (contains_iff_mem _ _).mpr ?_
    show id ∈ (st.log ++ [id]).map stripStr
    rw [List.map_append]
    exact List.mem_append_right _ (by simp [hid])
  · intro hx
    refine (contains_iff_mem _ _).mpr ?_
    show x ∈ (st.log ++ [id]).map stripStr
    rw [List.map_append]
    exact List.mem_append_left _ ((contains_iff_mem _ _).mp hx)

theorem c6_witness :
    containsSeen (addSeen ⟨["a"], ["a"]⟩ "b") "b" = true
    ∧ containsSeen (addSeen ⟨["a"], ["a"]⟩ "b") "a" = true
    ∧ (load_seen_spaces (addSeen ⟨["a"], ["a"]⟩ "b").log).contains "b" = true
    ∧ (load_seen_spaces (addSeen ⟨["a"], ["a"]⟩ "b").log).contains "a" = true :=
  ⟨(c6_seen_set_monotone ⟨["a"], ["a"]⟩ "b" "a").1,
   (c6_seen_set_monotone ⟨["a"], ["a"]⟩ "b" "a").2.1 (by decide),
   (c6_seen_set_monotone ⟨["a"], ["a"]⟩ "b" "a").2.2.1 (by decide),
   (c6_seen_set_monotone ⟨["a"], ["a"]⟩ "b" "a").2.2.2 (by decide)⟩

/-- C7: if the listing of one directory `d` fails, the walk behaves
exactly as if `d` had an empty listing — every file collected from the
other directories already processed or still queued is still returned,
only `d`'s subtree is omitted, and the walk neither aborts nor loses the
files accumulated so far (the accumulator is always a prefix of the
result). -/
theorem c7_walk_failure_resilience :
    ∀ (env : String → Except Unit (List (String × String))) (d : String),
      env d = Except.error () →
      (∀ fuel queue files,
        walkAux env fuel queue files
          = walkAux (fun p => if p = d then Except.ok [] else env p) fuel queue files)
      ∧ (∀ fuel queue files, files <+: walkAux env fuel queue files) := by
  intro env d hd
  constructor
  · intro fuel
    induction fuel with
    | zero => intro queue files; rfl
    | succ fuel ih =>
      intro queue files
      cases queue with
      | nil => rfl
      | cons q qs =>
        by_cases hq : q = d
        · subst hq
          rw [show walkAux env (fuel + 1) (q :: qs) files = walkAux env fuel qs files from by
              rw [walkAux, hd]]
          rw [show walkAux (fun p => if p = q then Except.ok [] else env p) (fuel + 1)
                (q :: qs) files
              = walkAux (fun p => if p = q then Except.ok [] else env p) fuel qs files from by
              rw [walkAux]; simp]
          exact ih qs files
        · cases henv : env q with
          | error e =>
            rw [show walkAux env (fuel + 1) (q :: qs) files = walkAux env fuel qs files from by
                rw [walkAux, henv]]
            rw [show walkAux (fun p => if p = d then Except.ok [] else env p) (fuel + 1)
                  (q :: qs) files
                = walkAux (fun p => if p = d then Except.ok [] else env p) fuel qs files from by
                rw [walkAux]; simp [hq, henv]]
            exact ih qs files
          | ok items =>
            rw [show walkAux env (fuel + 1) (q :: qs) files
                = walkAux env fuel
                    (qs ++ items.filterMap fun it =>
                      if it.2 == "directory" then some it.1 else none)
                    (files ++ items.filterMap fun it =>
                      if it.2 == "file" then some it.1 else none) from by
                rw [walkAux, henv]]
            rw [show walkAux (fun p => if p = d then Except.ok [] else env p) (fuel + 1)
                  (q :: qs) files
                = walkAux (fun p => if p = d then Except.ok [] else env p) fuel
                    (qs ++ items.filterMap fun it =>
                      if it.2 == "directory" then some it.1 else none)
                    (files ++ items.filterMap fun it =>
                      if it.2 == "file" then some it.1 else none) from by
                rw [walkAux]; simp [hq, henv]]
            exact ih _ _
  · intro fuel
    induction fuel with
    | zero => intro queue files; exact List.prefix_refl files
    | succ fuel ih =>
      intro queue files
      cases queue with
      | nil => exact List.prefix_refl files
      | cons q qs =>
        cases henv : env q with
        | error e =>
          rw [show walkAux env (fuel + 1) (q :: qs) files = walkAux env fuel qs files from by
              rw [walkAux, henv]]
          exact ih qs files
        | ok items =>
          rw [show walkAux env (fuel + 1) (q :: qs) files
              = walkAux env fuel
                  (qs ++ items.filterMap fun it =>
                    if it.2 == "directory" then some it.1 else none)
                  (files ++ items.filterMap fun it =>
                    if it.2 == "file" then some it.1 else none) from by
              rw [walkAux, henv]]
          exact (List.prefix_append files _).trans (ih _ _)

/-- A concrete remote tree whose directory `"bad"` fails to list. -/
def c7Env : String → Except Unit (List (String × String)) :=
  fun p =>
    if p = "" then .ok [("a.py", "file"), ("bad", "directory"), ("sub", "directory")]
    else if p = "bad" then .error ()
    else if p = "sub" then .ok [("sub/b.txt", "file")]
    else .ok []

theorem c7_witness :
    walkAux c7Env 10 [""] []
      = walkAux (fun p => if p = "bad" then Except.ok [] else c7Env p) 10 [""] []
    ∧ ["pre.txt"] <+: walkAux c7Env 10 [""] ["pre.txt"] :=
  ⟨(c7_walk_failure_resilience c7Env "bad" rfl).1 10 [""] [],
   (c7_walk_failure_resilience c7Env "bad" rfl).2 10 [""] ["pre.txt"]⟩

theorem data_append (s t : String) : (s ++ t).data = s.data ++ t.data := rfl

theorem containsSeg_append (pre sub post : List Char) :
    containsSeg sub (pre ++ sub ++ post) = true := by
  unfold containsSeg
  rw [List.any_eq_true]
  refine ⟨pre.length, ?_, ?_⟩
  · rw [List.mem_range]
    have h : (pre ++ sub ++ post).length = pre.length + sub.length + post.length := by
      simp [List.length_append]
      omega
    omega
  · rw [List.append_assoc, List.drop_left, List.isPrefixOf_iff_prefix]
    exact List.prefix_append sub post

theorem containsSeg_of_eq (sub l pre post : List Char) (h : l = pre ++ (sub ++ post)) :
    containsSeg sub l = true := by
  subst h
  have h2 := containsSeg_append pre sub post
  rwa [List.append_assoc] at h2

/-- C8 (amended): the lines appended by the scanner's
`save_key_to_file` and by main.py's results writer contain both the
secret value and the originating repository id — and `save_key_to_file`
appends exactly that line — whereas hfscrapper's recording to keys.txt
appends only the secret value, so its lines need not mention the
repository. -/
theorem c8_scanner_lines_have_repo : ∀ key space_id : String,
    containsSeg space_id.data (keyLine key space_id).data = true
    ∧ containsSeg key.data (keyLine key space_id).data = true
    ∧ containsSeg space_id.data (mainResultLine space_id key).data = true
    ∧ containsSeg key.data (mainResultLine space_id key).data = true
    ∧ ∀ files : String → List String,
        save_key_to_file "OpenAI" key space_id files OPENAI_KEYS_OUTPUT_FILE
          = files OPENAI_KEYS_OUTPUT_FILE ++ [keyLine key space_id] := by
  intro key sid
  refine ⟨?_, ?_, ?_, ?_, ?_⟩
  · exact containsSeg_of_eq sid.data _ (key ++ " # Found in space: ").data []
      (by simp [keyLine, data_append])
  · exact containsSeg_of_eq key.data _ []
      ((" # Found in space: " : String).data ++ sid.data)
      (by simp [keyLine, data_append])
  · exact containsSeg_of_eq sid.data _ ("Space: " : String).data
      ((", Key: " : String).data ++ key.data)
      (by simp [mainResultLine, data_append])
  · exact containsSeg_of_eq key.data _ ("Space: " ++ sid ++ ", Key: ").data []
      (by simp [mainResultLine, data_append])
  · intro files
    show (fun f => if f = OPENAI_KEYS_OUTPUT_FILE
        then files f ++ [keyLine key sid] else files f) OPENAI_KEYS_OUTPUT_FILE
      = files OPENAI_KEYS_OUTPUT_FILE ++ [keyLine key sid]
    simp

/-- A key matched by hfscrapper's `oai_regex` (47 word characters after
the prefix). -/
def c8Key : String := "sk-AAAAAAAAAAAAAAAAAAAAAAAAAAAAAAAAAAAAAAAAAAAAAAA"

/-- A file content in which hfscrapper finds `c8Key`. -/
def c8Content : String := "token sk-AAAAAAAAAAAAAAAAAAAAAAAAAAAAAAAAAAAAAAAAAAAAAAA"

/-- C8 counterexample: scanning a space owned at id "user/space",
hfscrapper finds `c8Key` and its recording operation appends to
keys.txt a line that is the bare key — a line that does not contain the
originating repository id, refuting the claim for this recording
operation. -/
theorem c8_counterexample :
    findall [oai_regex] c8Content = [c8Key]
    ∧ append_to_file (fun _ => []) "keys.txt" c8Key "keys.txt" = [c8Key]
    ∧ containsSeg "user/space".data c8Key.data = false := by
  refine ⟨rfl, rfl, by decide⟩

theorem fetchPages_stable :
    ∀ (k : Nat) (catalog : Nat → Except Unit (List String)) (page : Nat),
    catalog (page + k) = Except.ok [] →
    (∀ p, page ≤ p → p < page + k → ∃ l, catalog p = Except.ok l ∧ l ≠ []) →
    ∀ fuel, k + 1 ≤ fuel →
      fetchPages catalog fuel page = fetchPages catalog (k + 1) page
      ∧ ∀ id2 ∈ fetchPages catalog fuel page,
          ∃ p l, page ≤ p ∧ p < page + k ∧ catalog p = Except.ok l ∧ id2 ∈ l := by
  intro k
  induction k with
  | zero =>
    intro catalog page hstop hne fuel hfuel
    obtain ⟨f, rfl⟩ : ∃ f, fuel = f + 1 := ⟨fuel - 1, by omega⟩
    rw [Nat.add_zero] at hstop
    have hnil : fetchPages catalog (f + 1) page = [] := by
      rw [fetchPages, hstop]
    constructor
    · rw [hnil]
      rw [show fetchPages catalog (0 + 1) page = [] from by rw [fetchPages, hstop]]
    · intro id2 hid
      rw [hnil] at hid
      cases hid
  | succ k ih =>
    intro catalog page hstop hne fuel hfuel
    obtain ⟨f, rfl⟩ : ∃ f, fuel = f + 1 := ⟨fuel - 1, by omega⟩
    obtain ⟨l, hl, hlne⟩ := hne page (Nat.le_refl _) (by omega)
    obtain ⟨a, as, rfl⟩ : ∃ a as, l = a :: as := by
      cases l with
      | nil => exact absurd rfl hlne
      | cons a as => exact ⟨a, as, rfl⟩
    have hstop2 : catalog ((page + 1) + k) = Except.ok [] := by
      rw [show (page + 1) + k = page + (k + 1) from by omega]
      exact hstop
    have hne2 : ∀ p, page + 1 ≤ p → p < (page + 1) + k →
        ∃ l2, catalog p = Except.ok l2 ∧ l2 ≠ [] := by
      intro p h1 h2
      exact hne p (by omega) (by omega)
    have ihf := ih catalog (page + 1) hstop2 hne2 f (by omega)
    have ihk := ih catalog (page + 1) hstop2 hne2 (k + 1) (by omega)
    have hunf : fetchPages catalog (f + 1) page
        = (a :: as) ++ fetchPages catalog f (page + 1) := by
      rw [fetchPages, hl]
    have hunfk : fetchPages catalog (k + 1 + 1) page
        = (a :: as) ++ fetchPages catalog (k + 1) (page + 1) := by
      rw [fetchPages, hl]
    constructor
    · rw [hunf, hunfk, ihf.1, ihk.1]
    · intro id2 hid
      rw [hunf, List.mem_append] at hid
      cases hid with
      | inl h => exact ⟨page, a :: as, Nat.le_refl _, by omega, hl, h⟩
      | inr h =>
        obtain ⟨p, l2, hp1, hp2, hcat, hmem⟩ := ihf.2 id2 h
        exact ⟨p, l2, by omega, by omega, hcat, hmem⟩

/-- C9: when the catalog first signals an empty page at page `N` (every
earlier page being a nonempty success), the pagination loop of
`get_all_spaces` terminates there — any fuel of at least `N` gives the
same result as fuel exactly `N` — and every repository id yielded comes
from a page requested before that termination point. -/
theorem c9_pagination_terminates :
    ∀ (catalog : Nat → Except Unit (List String)) (N : Nat),
    1 ≤ N →
    catalog N = Except.ok [] →
    (∀ p, 1 ≤ p → p < N → ∃ l, catalog p = Except.ok l ∧ l ≠ []) →
    ∀ fuel, N ≤ fuel →
      get_all_spaces catalog fuel = get_all_spaces catalog N
      ∧ ∀ id2 ∈ get_all_spaces catalog fuel,
          ∃ p l, 1 ≤ p ∧ p < N ∧ catalog p = Except.ok l ∧ id2 ∈ l := by
  intro catalog N hN hstop hne fuel hfuel
  have h1 : catalog (1 + (N - 1)) = Except.ok [] := by
    rw [show 1 + (N - 1) = N from by omega]
    exact hstop
  have h2 : ∀ p, 1 ≤ p → p < 1 + (N - 1) → ∃ l, catalog p = Except.ok l ∧ l ≠ [] := by
    intro p hp1 hp2
    exact hne p hp1 (by omega)
  have hmain := fetchPages_stable (N - 1) catalog 1 h1 h2 fuel (by omega)
  have hatN := fetchPages_stable (N - 1) catalog 1 h1 h2 N (by omega)
  constructor
  · show fetchPages catalog fuel 1 = fetchPages catalog N 1
    rw [hmain.1, ← hatN.1]
  · intro id2 hid
    obtain ⟨p, l, hp1, hp2, hcat, hmem⟩ := hmain.2 id2 hid
    exact ⟨p, l, hp1, by omega, hcat, hmem⟩

/-- A concrete catalog: pages 1 and 2 nonempty, page 3 empty. -/
def c9Catalog : Nat → Except Unit (List String) :=
  fun p => if p = 1 then .ok ["s1", "s2"] else if p = 2 then .ok ["s3"] else .ok []

theorem c9_witness : get_all_spaces c9Catalog 10 = get_all_spaces c9Catalog 3 :=
  (c9_pagination_terminates c9Catalog 3 (by omega) rfl
    (fun p hp1 hp2 => by
      interval_cases p
      · exact ⟨["s1", "s2"], rfl, by decide⟩
      · exact ⟨["s3"], rfl, by decide⟩)
    10 (by omega)).1

end Grabbertest
